import Mathlib

set_option maxRecDepth 100000

/-!
A shallow embedding of `get_timings.py` (repository felixmiller/cta861modes).

Python strings are modelled as `List Char` (`Str`), Python `int` as `Int`,
and the fallible parser as computations in `Except Err`.  Python's float
arithmetic in the refresh-rate check is modelled as exact rational
arithmetic; to keep every definition kernel-computable the comparison is
implemented by integer cross-multiplication, and the theorem for claim C2
proves that implementation equivalent to the textbook rational form.
-/

namespace CTA861

abbrev Str := List Char

/-- Characters that Python's `str.strip()` removes. -/
def isSpace (c : Char) : Bool :=
  c = ' ' || c = '\t' || c = '\n' || c = '\r' || c = '\x0b' || c = '\x0c'

/-- Python `s.strip()`. -/
def strip (s : Str) : Str :=
  ((s.dropWhile isSpace).reverse.dropWhile isSpace).reverse

/-- A Lean string literal as a Python string value. -/
def pyStr (s : String) : Str := s.data

/-- Split at the first occurrence of `sep`: `some (before, after)`,
`none` when `sep` does not occur.  (`sep` is never empty in this file.) -/
def splitFirst (sep : Str) : Str → Option (Str × Str)
  | [] => if sep.isPrefixOf ([] : Str) then some ([], []) else none
  | c :: cs =>
    if sep.isPrefixOf (c :: cs) then some ([], (c :: cs).drop sep.length)
    else (splitFirst sep cs).map (fun p => (c :: p.1, p.2))

/-- Python `s.split(sep)[0]`: the text before the first occurrence of `sep`
(the whole string when `sep` does not occur). -/
def part0 (sep s : Str) : Str :=
  match splitFirst sep s with
  | none => s
  | some p => p.1

/-- Python `s.split(sep, 1)[1]`: everything after the first occurrence. -/
def after1 (sep s : Str) : Option Str :=
  (splitFirst sep s).map (·.2)

/-- Python `s.split(sep)[1]`: the text between the first and the second
occurrence of `sep` (up to the end when there is no second occurrence). -/
def part1 (sep s : Str) : Option Str :=
  (after1 sep s).map (part0 sep)

/-- Python `s.split(sep)` (full split), with fuel `s.length`, which is
enough because every found separator consumes at least one character. -/
def splitAllAux (sep : Str) : Nat → Str → List Str
  | 0, s => [s]
  | n + 1, s =>
    match splitFirst sep s with
    | none => [s]
    | some p => p.1 :: splitAllAux sep n p.2

def splitAll (sep s : Str) : List Str := splitAllAux sep s.length s

/-- Python `s.rsplit(sep, 2)`: at most two splits, taken from the right. -/
def rsplit2 (sep s : Str) : List Str :=
  let ps := splitAll sep s
  if ps.length ≥ 3 then
    [List.intercalate sep (ps.take (ps.length - 2)),
     ps.getD (ps.length - 2) [], ps.getD (ps.length - 1) []]
  else ps

/-- Python `s.split()` (split on whitespace runs, no empty parts), with
fuel: every produced token is nonempty, so `s.length` iterations suffice. -/
def wsSplitAux : Nat → Str → List Str
  | 0, s => if s.isEmpty then [] else [s]
  | n + 1, s =>
    let t := s.dropWhile isSpace
    if t.isEmpty then []
    else
      let tok := t.takeWhile (fun c => !isSpace c)
      tok :: wsSplitAux n (t.drop tok.length)

def wsSplit (s : Str) : List Str := wsSplitAux s.length s

/-- The Python exceptions the script can raise. -/
inductive Err where
  | indexError
  | valueError
  | typeError
  | assertionError
  | zeroDivisionError
deriving DecidableEq

/-- Python indexing / `split(...)[i]`: `none` is an `IndexError` (and a
missing value generally maps to the given exception). -/
def liftO (e : Err) : Option α → Except Err α
  | some a => .ok a
  | none => .error e

/-- Python `assert cond`: `AssertionError` when the condition is false
(and, reused with other error kinds, any conditional raise). -/
def ensure (p : Prop) [Decidable p] (e : Err) : Except Err Unit :=
  if p then .ok () else .error e

def digit? (c : Char) : Bool := '0' ≤ c && c ≤ '9'

def digitsToNat (s : Str) : Nat :=
  s.foldl (fun n c => 10 * n + (c.toNat - '0'.toNat)) 0

/-- Python `int(s)` on the decimal strings this script meets: surrounding
whitespace, an optional sign, then at least one digit. -/
def pyInt (s : Str) : Except Err Int :=
  match strip s with
  | '-' :: ds =>
    if ds ≠ [] ∧ ds.all digit? then .ok (-(digitsToNat ds : Int)) else .error .valueError
  | '+' :: ds =>
    if ds ≠ [] ∧ ds.all digit? then .ok (digitsToNat ds : Int) else .error .valueError
  | ds =>
    if ds ≠ [] ∧ ds.all digit? then .ok (digitsToNat ds : Int) else .error .valueError

/-- An exact decimal value `num / den` (`den` a power of ten), the model of
the Python float produced by `float(cmnt_freq)`. -/
structure Dec where
  num : Int
  den : Int
deriving DecidableEq

/-- The rational value of a parsed decimal. -/
def decToQ (f : Dec) : ℚ := (f.num : ℚ) / (f.den : ℚ)

/-- Python `float(s)` on plain decimal notation: optional sign, digits with
at most one decimal point, at least one digit. -/
def pyFloat (s : Str) : Except Err Dec :=
  let t := strip s
  let su : Bool × Str :=
    match t with
    | '-' :: r => (true, r)
    | '+' :: r => (false, r)
    | r => (false, r)
  let sign := su.1
  let u := su.2
  match splitFirst (pyStr ".") u with
  | none =>
    if u ≠ [] ∧ u.all digit? then
      .ok ⟨(if sign then -(digitsToNat u : Int) else (digitsToNat u : Int)), 1⟩
    else .error .valueError
  | some p =>
    if (p.1 ++ p.2) ≠ [] ∧ p.1.all digit? ∧ p.2.all digit? then
      let n : Int := (digitsToNat p.1 : Int) * (10 : Int) ^ p.2.length + (digitsToNat p.2 : Int)
      .ok ⟨(if sign then -n else n), (10 : Int) ^ p.2.length⟩
    else .error .valueError

/-! ## The data model (`video_timings.json` record, lines 145-166) -/

/-- One accepted record, the dictionary built at lines 145-166 of
`get_timings.py`. -/
structure Mode where
  vic : Int
  name : Str
  pxl_clk_khz : Int
  hactive : Int
  vactive : Int
  interlaced : Bool
  double_clocked : Bool
  htotal : Int
  hblank : Int
  hfront : Int
  hsync : Int
  hback : Int
  hpol : Int
  vtotal : Int
  vblank : Int
  vfront : Int
  vsync : Int
  vback : Int
  vpol : Int
  ln : Int
deriving DecidableEq

/-! ## Fixed lookup tables (lines 48-61) -/

def arrays_to_include : List Str := [pyStr "edid_cea_modes_1", pyStr "edid_cea_modes_193"]

def ln4 : List Int := [6, 7, 8, 9, 10, 11, 12, 13, 50, 51, 58, 59]

def ln7 : List Int := [2, 3, 14, 15, 35, 36, 48, 49, 56, 57]

/-- Lines 58-61 of `get_timings.py`. -/
def get_ln (vic : Int) : Int :=
  if vic ∈ ln4 then 4 else if vic ∈ ln7 then 7 else 1

/-! ## Entry splitting (lines 66-69) -/

/-- Line 67: `mode_string.split('/*')[1].split('*/')[0].strip()`. -/
def commentOf (s : Str) : Option Str :=
  (part1 (pyStr "/*") s).map (fun x => strip (part0 (pyStr "*/") x))

/-- Line 68: `mode_string.split('*/')[1].split("(",1)[1].rsplit(')')[0].strip()`
(`rsplit(')')` with no maxsplit has the same parts as `split(')')`, so
index `[0]` is the text before the first `')'`). -/
def macStrOf (s : Str) : Option Str :=
  (part1 (pyStr "*/") s).bind fun x =>
    (after1 (pyStr "(") x).map fun y => strip (part0 (pyStr ")") y)

/-- Line 69: `mode_string.split('.picture_aspect_ratio')[1].split(',')[0].strip()`. -/
def aspectOf (s : Str) : Option Str :=
  (part1 (pyStr ".picture_aspect_ratio") s).map (fun x => strip (part0 (pyStr ",") x))

/-! ## Comment parsing (lines 71-93) -/

structure CommentData where
  vic : Int
  name : Str
  freq : Str
  dblClocked : Bool
  hres : Int
  dblHres : Option Int
  interlaced : Bool
  vres : Int
  aspectNom : Int
  aspectDenom : Int
deriving DecidableEq

/-- Lines 76-83: the horizontal-resolution token, with the optional
double-clocked `base(doubled)` form. -/
def parseHresPart (hresStr : Str) : Except Err (Bool × Int × Option Int) :=
  if hresStr.contains '(' then do
    let h ← pyInt (part0 (pyStr "(") hresStr)
    let inner ← liftO .indexError (part1 (pyStr "(") hresStr)
    let dh ← pyInt (strip (part0 (pyStr ")") inner))
    pure (true, h, some dh)
  else do
    let h ← pyInt hresStr
    pure (false, h, none)

/-- Lines 85-90: the vertical-resolution token, with the optional trailing
interlace marker `i`. -/
def parseVresPart (vresStr : Str) : Except Err (Bool × Int) :=
  if vresStr.getLast? = some 'i' then do
    let v ← pyInt vresStr.dropLast
    pure (true, v)
  else do
    let v ← pyInt vresStr
    pure (false, v)

/-- Lines 72-93 of `get_timings.py`. -/
def parseComment (comment : Str) : Except Err CommentData := do
  let vic ← pyInt (strip (part0 (pyStr "-") comment))
  let rest ← liftO .indexError (part1 (pyStr "-") comment)
  let name := strip (part0 (pyStr " ") (strip rest))
  let atPart ← liftO .indexError (part1 (pyStr "@") name)
  let freq := strip (part0 (pyStr "Hz") atPart)
  let hr ← parseHresPart (part0 (pyStr "x") name)
  let xPart ← liftO .indexError (part1 (pyStr "x") name)
  let vr ← parseVresPart (strip (part0 (pyStr "@") xPart))
  let arTok ← liftO .indexError (part1 (pyStr " ") (strip rest))
  let ar := strip arTok
  let aNom ← pyInt (strip (part0 (pyStr ":") ar))
  let colonPart ← liftO .indexError (part1 (pyStr ":") ar)
  let aDenom ← pyInt (strip colonPart)
  pure ⟨vic, name, freq, hr.1, hr.2.1, hr.2.2, vr.1, vr.2, aNom, aDenom⟩

/-! ## Macro parameter parsing (lines 95-109) -/

structure MacroData where
  name : Str
  typeStr : Str
  clockStr : Str
  hdisplayStr : Str
  hsyncStartStr : Str
  hsyncEndStr : Str
  htotalStr : Str
  hskewStr : Str
  vdisplayStr : Str
  vsyncStartStr : Str
  vsyncEndStr : Str
  vtotalStr : Str
  vscanStr : Str
  flags : List Str
  dblClk : Bool
  interlaced : Bool
  hsyncNeg : Bool
  vsyncNeg : Bool
  nameHres : Int
  nameInterlaced : Bool
  nameVres : Int
deriving DecidableEq

/-- Lines 104-109: the resolution encoded in the macro's name string. -/
def parseMacName (name : Str) : Except Err (Int × Bool × Int) := do
  let hres ← pyInt (part0 (pyStr "x") name)
  if name.contains 'i' then do
    let xPart ← liftO .indexError (part1 (pyStr "x") name)
    let vres ← pyInt xPart.dropLast
    pure (hres, true, vres)
  else do
    let xPart ← liftO .indexError (part1 (pyStr "x") name)
    let vres ← pyInt xPart
    pure (hres, false, vres)

/-- Lines 96-109 of `get_timings.py`: strip spaces, split on commas into
exactly 14 fields (a different count is the unpacking `ValueError`), split
the flags on `|`, and decode the name string. -/
def parseMacroFields (mac : Str) : Except Err MacroData := do
  match splitAll (pyStr ",") (mac.filter (fun c => c ≠ ' ')) with
  | [nameQ, ty, clock, hd, hss, hse, ht, hskew, vd, vss, vse, vt, vscan, flagsStr] => do
    let flags := (splitAll (pyStr "|") flagsStr).map strip
    let dblClk := flags.contains (pyStr "DRM_MODE_FLAG_DBLCLK")
    let interlaced := flags.contains (pyStr "DRM_MODE_FLAG_INTERLACE")
    let hsyncNeg := flags.contains (pyStr "DRM_MODE_FLAG_NHSYNC")
    let vsyncNeg := flags.contains (pyStr "DRM_MODE_FLAG_NVSYNC")
    let name := nameQ.filter (fun c => c ≠ '"')
    let nm ← parseMacName name
    pure ⟨name, ty, clock, hd, hss, hse, ht, hskew, vd, vss, vse, vt, vscan,
          flags, dblClk, interlaced, hsyncNeg, vsyncNeg, nm.1, nm.2.1, nm.2.2⟩
  | _ => .error .valueError

/-! ## Aspect-ratio field parsing (lines 111-113) -/

/-- Line 112: `int(aspect_elmnt.rsplit('_',2)[1])`. -/
def aspectNomOf (aspectElmnt : Str) : Except Err Int := do
  let t ← liftO .indexError ((rsplit2 (pyStr "_") aspectElmnt).get? 1)
  pyInt t

/-- Line 113: `int(aspect_elmnt.rsplit('_',2)[2])`. -/
def aspectDenomOf (aspectElmnt : Str) : Except Err Int := do
  let t ← liftO .indexError ((rsplit2 (pyStr "_") aspectElmnt).get? 2)
  pyInt t

/-! ## Consistency checks (lines 115-143) -/

/-- Line 117: the closed flag vocabulary. -/
def flags_avail : List Str :=
  [pyStr "DRM_MODE_FLAG_DBLCLK", pyStr "DRM_MODE_FLAG_INTERLACE",
   pyStr "DRM_MODE_FLAG_NHSYNC", pyStr "DRM_MODE_FLAG_NVSYNC",
   pyStr "DRM_MODE_FLAG_PHSYNC", pyStr "DRM_MODE_FLAG_PVSYNC"]

/-- `len({a, b} & set(flags))` for the two distinct polarity flag names of
one axis (lines 120-121). -/
def polCount (a b : Str) (flags : List Str) : Nat :=
  (if a ∈ flags then 1 else 0) + (if b ∈ flags then 1 else 0)

/-- Lines 122-124: if the macro interlace flag is set, the macro name and
the comment must both encode interlace.  (No check in the other direction.) -/
def checkInterlaced (macI nameI cmntI : Bool) : Except Err Unit :=
  if macI then do
    ensure (nameI = true) .assertionError
    ensure (cmntI = true) .assertionError
  else pure ()

/-- Lines 125-127: if the macro double-clock flag is set, the comment must
encode a doubled resolution equal to twice the base resolution. -/
def checkDblClk (macD cmntD : Bool) (hres : Int) (dblHres : Option Int) : Except Err Unit :=
  if macD then do
    ensure (cmntD = true) .assertionError
    ensure (dblHres = some (2 * hres)) .assertionError
  else pure ()

inductive FpsOutcome where
  | silent
  | warn
  | fatal
deriving DecidableEq

/-- Lines 137-143, on exact rationals.  The computed rate is
`p / D = (2 if interlaced else 1) * clock * 1000 / (vtotal * htotal)` and the
stated rate is `f.num / f.den`; the code's float comparisons
`fps_calc != freq` and `abs(freq - fps_calc) < 0.005 * freq` are the exact
comparisons below, written with integer cross-multiplication so that they
compute (theorem `c2_fps_tolerance` proves them equal to the textbook
rational form). -/
def fpsOutcome (clock vtotal htotal : Int) (interlaced : Bool) (f : Dec) : FpsOutcome :=
  let p : Int := (if interlaced then 2 else 1) * (clock * 1000)
  let D : Int := vtotal * htotal
  if f.num * D = p * f.den then .silent
  else if (1000 : Int) * ((f.num * D - p * f.den).natAbs : Int) < 5 * f.num * (D.natAbs : Int)
  then .warn
  else .fatal

/-- The computed refresh rate of lines 137-138 as a rational number. -/
def fps_calc (clock vtotal htotal : Int) (interlaced : Bool) : ℚ :=
  let f0 : ℚ := ((clock * 1000 : Int) : ℚ) / ((vtotal * htotal : Int) : ℚ)
  if interlaced then f0 * 2 else f0

/-- Lines 115-143 of `get_timings.py`, in source order.  Returns `true` when
the refresh-rate warning of line 141 is printed, `false` for a silent pass. -/
def checks (c : CommentData) (m : MacroData) (aNom aDenom : Int) : Except Err Bool := do
  ensure ((m.flags.all fun f => flags_avail.contains f) = true) .assertionError
  ensure (polCount (pyStr "DRM_MODE_FLAG_NHSYNC") (pyStr "DRM_MODE_FLAG_PHSYNC") m.flags = 1)
    .assertionError
  ensure (polCount (pyStr "DRM_MODE_FLAG_NVSYNC") (pyStr "DRM_MODE_FLAG_PVSYNC") m.flags = 1)
    .assertionError
  checkInterlaced m.interlaced m.nameInterlaced c.interlaced
  checkDblClk m.dblClk c.dblClocked c.hres c.dblHres
  let hd ← pyInt m.hdisplayStr
  ensure (hd = c.hres) .assertionError
  ensure (m.nameHres = c.hres) .assertionError
  let vd ← pyInt m.vdisplayStr
  ensure (vd = c.vres) .assertionError
  ensure (m.nameVres = c.vres) .assertionError
  ensure (aNom = c.aspectNom) .assertionError
  ensure (aDenom = c.aspectDenom) .assertionError
  ensure (m.typeStr = pyStr "DRM_MODE_TYPE_DRIVER") .assertionError
  let hskew ← pyInt m.hskewStr
  ensure (hskew = 0) .assertionError
  let vscan ← pyInt m.vscanStr
  ensure (vscan = 0) .assertionError
  let clock ← pyInt m.clockStr
  let vt ← pyInt m.vtotalStr
  let ht ← pyInt m.htotalStr
  let fq ← pyFloat c.freq
  if vt * ht = 0 then .error .zeroDivisionError
  else
    match fpsOutcome clock vt ht m.interlaced fq with
    | .fatal => .error .assertionError
    | .warn => pure true
    | .silent => pure false

/-! ## Record assembly (lines 145-168) -/

/-- Lines 145-166: the `mode` dictionary.  The `int(...)` conversions of the
string fields happen here in the Python source (repeating conversions already
done in the checks, with identical results). -/
def mkMode (c : CommentData) (m : MacroData) : Except Err Mode := do
  let clock ← pyInt m.clockStr
  let hd ← pyInt m.hdisplayStr
  let hss ← pyInt m.hsyncStartStr
  let hse ← pyInt m.hsyncEndStr
  let ht ← pyInt m.htotalStr
  let vd ← pyInt m.vdisplayStr
  let vss ← pyInt m.vsyncStartStr
  let vse ← pyInt m.vsyncEndStr
  let vt ← pyInt m.vtotalStr
  pure
    { vic := c.vic
      name := m.name ++ pyStr "@" ++ c.freq ++ pyStr "Hz"
      pxl_clk_khz := clock
      hactive := hd
      vactive := vd
      interlaced := m.interlaced
      double_clocked := m.dblClk
      htotal := ht
      hblank := ht - hd
      hfront := hss - hd
      hsync := hse - hss
      hback := ht - hse
      hpol := if m.hsyncNeg then 0 else 1
      vtotal := vt
      vblank := vt - vd
      vfront := vss - vd
      vsync := vse - vss
      vback := vt - vse
      vpol := if m.vsyncNeg then 0 else 1
      ln := get_ln c.vic }

/-- Lines 64-168 of `get_timings.py`: one raw entry block to one accepted
record.  The second component records whether the non-fatal refresh-rate
warning of line 141 was printed. -/
def parse_mode_string (s : Str) : Except Err (Mode × Bool) := do
  let comment ← liftO .indexError (commentOf s)
  let mac ← liftO .indexError (macStrOf s)
  let aspectElmnt ← liftO .indexError (aspectOf s)
  let c ← parseComment comment
  let m ← parseMacroFields mac
  let aNom ← aspectNomOf aspectElmnt
  let aDenom ← aspectDenomOf aspectElmnt
  let warned ← checks c m aNom aDenom
  let mode ← mkMode c m
  pure (mode, warned)

/-! ## The block scanner (lines 171-196) -/

/-- The scanner's loop state: the current array name (Python
`current_array`), the pending block (Python `mode_string`, `none` when unset
or reset to `None`), and the records accepted so far. -/
structure ScanSt where
  current : Option Str
  pending : Option Str
  modes : List Mode
deriving DecidableEq

def initSt : ScanSt := ⟨none, none, []⟩

/-- Python truthiness of `current_array`: set and nonempty. -/
def truthy : Option Str → Bool
  | none => false
  | some s => !s.isEmpty

def declPrefix : Str := pyStr "static const struct drm_display_mode"

/-- One iteration of the `for line in lines` loop (lines 177-194). -/
def procLine (arrays : List Str) (st : ScanSt) (raw : Str) : Except Err ScanSt := do
  let line := strip raw
  if (pyStr "\x7d;").isPrefixOf line then
    pure ⟨none, none, st.modes⟩
  else do
    let dc : ScanSt × Bool ←
      if declPrefix.isPrefixOf line then do
        let tok ← liftO .indexError ((wsSplit line).get? 4)
        let arrayName := strip (part0 (pyStr "[") tok)
        if arrays.contains arrayName then pure ({ st with current := some arrayName }, true)
        else pure (st, false)
      else pure (st, false)
    let st1 := dc.1
    if dc.2 then pure st1
    else if truthy st1.current then do
      let pending ←
        if (pyStr "/*").isPrefixOf line then pure line
        else match st1.pending with
          | some p => pure (p ++ line)
          | none => .error .typeError
      if (pyStr "\x7d,").isSuffixOf line then do
        let mw ← parse_mode_string pending
        pure ⟨st1.current, some pending, st1.modes ++ [mw.1]⟩
      else pure ⟨st1.current, some pending, st1.modes⟩
    else pure st1

/-- The loop over all lines. -/
def procLines (arrays : List Str) : List Str → ScanSt → Except Err ScanSt
  | [], st => .ok st
  | l :: ls, st => (procLine arrays st l) >>= procLines arrays ls

/-- The scanner run on an explicit line list: the accepted records of the
final loop state (the source has no end-of-input check). -/
def scanModes (arrays : List Str) (ls : List Str) : Except Err (List Mode) :=
  (procLines arrays ls initSt).map (·.modes)

/-- Lines 172-196 of `get_timings.py`: split the document on newlines, run
the scanner loop, and return the accepted records. -/
def parse_c_file (file_content : Str) (arrays : List Str) : Except Err (List Mode) :=
  scanModes arrays (splitAll (pyStr "\n") file_content)

/-! ## Definitions written from the spec's words (for claim C9)

The spec describes the parameter-list extraction as balanced-parenthesis
matching; `macStrSpec` renders that description, `firstCloseExtract` the
amended (first closing parenthesis) description.  Both are compared with
`macStrOf`, the extraction the code performs. -/

/-- Content up to the parenthesis that closes the current level: `d` open
parentheses are pending beyond the initial one. -/
def matchParen : Nat → Str → Option Str
  | _, [] => none
  | d, c :: cs =>
    if c = '(' then (matchParen (d + 1) cs).map (fun r => c :: r)
    else if c = ')' then
      if d = 0 then some []
      else (matchParen (d - 1) cs).map (fun r => c :: r)
    else (matchParen d cs).map (fun r => c :: r)

/-- Modelled from the spec: "the parameter list is the text strictly between
the first parenthesis after the comment-close delimiter and its matching
close parenthesis" (balanced matching). -/
def macStrSpec (s : Str) : Option Str :=
  (after1 (pyStr "*/") s).bind fun r =>
    (after1 (pyStr "(") r).bind fun inner =>
      (matchParen 0 inner).map strip

/-- The amended description: the text strictly between the first parenthesis
after the comment-close delimiter and the first close parenthesis after it
(no balanced matching). -/
def firstCloseExtract (s : Str) : Option Str :=
  (after1 (pyStr "*/") s).bind fun r =>
    (after1 (pyStr "(") r).map fun inner => strip (inner.takeWhile (fun ch => !(ch == ')')))

/-! ## Concrete inputs and expected outputs used by the claims -/

/-- The raw entry block of CTA-861 mode 16, exactly as the scanner
accumulates it from the kernel source layout. -/
def entry16 : Str := pyStr "/* 16 - 1920x1080@60Hz 16:9 */\x7b DRM_MODE(\"1920x1080\", DRM_MODE_TYPE_DRIVER, 148500, 1920, 2008,2052, 2200, 0, 1080, 1084, 1089, 1125, 0,DRM_MODE_FLAG_PHSYNC | DRM_MODE_FLAG_PVSYNC),.picture_aspect_ratio = HDMI_PICTURE_ASPECT_16_9, \x7d,"

/-- The record the script emits for mode 16. -/
def mode16 : Mode :=
  { vic := 16, name := pyStr "1920x1080@60Hz", pxl_clk_khz := 148500,
    hactive := 1920, vactive := 1080, interlaced := false, double_clocked := false,
    htotal := 2200, hblank := 280, hfront := 88, hsync := 44, hback := 148, hpol := 1,
    vtotal := 1125, vblank := 45, vfront := 4, vsync := 5, vback := 36, vpol := 1, ln := 1 }

/-- A document holding exactly the one well-formed mode-16 entry. -/
def doc16 : Str := pyStr "static const struct drm_display_mode edid_cea_modes_1[] = \x7b\n\t/* 16 - 1920x1080@60Hz 16:9 */\n\t\x7b DRM_MODE(\"1920x1080\", DRM_MODE_TYPE_DRIVER, 148500, 1920, 2008,\n\t\t   2052, 2200, 0, 1080, 1084, 1089, 1125, 0,\n\t\t   DRM_MODE_FLAG_PHSYNC | DRM_MODE_FLAG_PVSYNC),\n\t  .picture_aspect_ratio = HDMI_PICTURE_ASPECT_16_9, \x7d,\n\x7d;\n"

def declLine : Str := pyStr "static const struct drm_display_mode edid_cea_modes_1[] = \x7b"

/-- An entry whose h-sync-start (90) is below its h-display (100): every
consistency check of the script passes (the computed rate is exactly 60),
yet the derived front porch is negative. -/
def entry97 : Str := pyStr "/* 97 - 100x50@60Hz 4:3 */\x7b DRM_MODE(\"100x50\", DRM_MODE_TYPE_DRIVER, 30000, 100, 90,95, 1000, 0, 50, 55, 60, 500, 0,DRM_MODE_FLAG_PHSYNC | DRM_MODE_FLAG_PVSYNC),.picture_aspect_ratio = HDMI_PICTURE_ASPECT_4_3, \x7d,"

def mode97 : Mode :=
  { vic := 97, name := pyStr "100x50@60Hz", pxl_clk_khz := 30000,
    hactive := 100, vactive := 50, interlaced := false, double_clocked := false,
    htotal := 1000, hblank := 900, hfront := -10, hsync := 5, hback := 905, hpol := 1,
    vtotal := 500, vblank := 450, vfront := 5, vsync := 5, vback := 440, vpol := 1, ln := 1 }

/-- A document repeating the same entry (same mode identifier 97) twice. -/
def c4doc : Str :=
  declLine ++ pyStr "\n" ++ entry97 ++ pyStr "\n" ++ entry97 ++ pyStr "\n\x7d;\n"

/-- A truncated document: the array is still open and a partial block is
pending when the input ends. -/
def c7doc : Str :=
  declLine ++ pyStr "\n" ++ entry97 ++ pyStr "\n/* 99 - truncated"

/-- An entry whose comment and macro name both encode interlace (`480i`)
while the flag set carries no `DRM_MODE_FLAG_INTERLACE`; every check of the
script passes. -/
def entry98 : Str := pyStr "/* 98 - 720x480i@60Hz 4:3 */\x7b DRM_MODE(\"720x480i\", DRM_MODE_TYPE_DRIVER, 30000, 720, 730,790, 1000, 0, 480, 485, 490, 500, 0,DRM_MODE_FLAG_PHSYNC | DRM_MODE_FLAG_PVSYNC),.picture_aspect_ratio = HDMI_PICTURE_ASPECT_4_3, \x7d,"

def mode98 : Mode :=
  { vic := 98, name := pyStr "720x480i@60Hz", pxl_clk_khz := 30000,
    hactive := 720, vactive := 480, interlaced := false, double_clocked := false,
    htotal := 1000, hblank := 280, hfront := 10, hsync := 60, hback := 210, hpol := 1,
    vtotal := 500, vblank := 20, vfront := 5, vsync := 5, vback := 10, vpol := 1, ln := 1 }

/-- What the comment decoder yields on entry 98's comment. -/
def cdata98 : CommentData :=
  ⟨98, pyStr "720x480i@60Hz", pyStr "60", false, 720, none, true, 480, 4, 3⟩

/-- A well-formed interlaced entry (CTA-861 mode 5). -/
def entry5 : Str := pyStr "/* 5 - 1920x1080i@60Hz 16:9 */\x7b DRM_MODE(\"1920x1080i\", DRM_MODE_TYPE_DRIVER, 74250, 1920, 2008,2052, 2200, 0, 1080, 1084, 1094, 1125, 0,DRM_MODE_FLAG_PHSYNC | DRM_MODE_FLAG_PVSYNC | DRM_MODE_FLAG_INTERLACE),.picture_aspect_ratio = HDMI_PICTURE_ASPECT_16_9, \x7d,"

def mode5 : Mode :=
  { vic := 5, name := pyStr "1920x1080i@60Hz", pxl_clk_khz := 74250,
    hactive := 1920, vactive := 1080, interlaced := true, double_clocked := false,
    htotal := 2200, hblank := 280, hfront := 88, hsync := 44, hback := 148, hpol := 1,
    vtotal := 1125, vblank := 45, vfront := 4, vsync := 10, vback := 31, vpol := 1, ln := 1 }

/-- An input on which first-close extraction and balanced extraction
disagree: the parameter list region holds a nested parenthesis. -/
def c9input : Str := pyStr "/* c */ (a(b)c)"

/-- Line list of a document prefix that leaves the array open with a block
pending (array declaration, then one comment line). -/
def c7ls : List Str := [declLine, pyStr "\t/* 16 - 1920x1080@60Hz 16:9 */"]

/-- One more partial line (no entry terminator). -/
def c7p : Str := pyStr "\t/* 99 - a partial pending block"

/-- A macro field set whose flag list carries a horizontal polarity flag but
no vertical polarity flag. -/
def macNoVPol : MacroData :=
  ⟨pyStr "100x50", pyStr "DRM_MODE_TYPE_DRIVER", pyStr "30000", pyStr "100", pyStr "90",
   pyStr "95", pyStr "1000", pyStr "0", pyStr "50", pyStr "55", pyStr "60", pyStr "500",
   pyStr "0", [pyStr "DRM_MODE_FLAG_PHSYNC"], false, false, false, false, 100, false, 50⟩

/-! ## Inversion toolkit for `Except` computations -/

theorem bind_ok {α β : Type} (e : Except Err α) (f : α → Except Err β) (b : β) :
    e >>= f = Except.ok b ↔ ∃ a, e = Except.ok a ∧ f a = Except.ok b := by
  cases e with
  | error err =>
    constructor
    · intro h; exact Except.noConfusion h
    · rintro ⟨a, ha, -⟩; exact Except.noConfusion ha
  | ok a =>
    constructor
    · intro h; exact ⟨a, rfl, h⟩
    · rintro ⟨a2, ha, hf⟩
      cases ha
      exact hf

theorem liftO_ok {α : Type} (e : Err) (o : Option α) (a : α) :
    liftO e o = Except.ok a ↔ o = some a := by
  cases o <;> simp [liftO]

theorem ensure_ok (p : Prop) [Decidable p] (e : Err) (u : Unit) :
    ensure p e = Except.ok u ↔ p := by
  cases u
  by_cases hp : p <;> simp [ensure, hp]

theorem pure_ok {α : Type} (x y : α) :
    (pure x : Except Err α) = Except.ok y ↔ x = y := by
  constructor
  · intro h; exact Except.ok.inj h
  · intro h; cases h; rfl

theorem exists_punit {p : Unit → Prop} : (∃ u : Unit, p u) ↔ p () := by
  constructor
  · rintro ⟨u, h⟩; cases u; exact h
  · intro h; exact ⟨(), h⟩

theorem map_ok {α β : Type} (g : α → β) (e : Except Err α) (b : β) :
    Except.map g e = Except.ok b ↔ ∃ a, e = Except.ok a ∧ g a = b := by
  cases e with
  | error err => simp [Except.map]
  | ok a => simp [Except.map]

/-! ## Structural inversion of one accepted entry -/

/-- An accepted entry passed through every stage: the three extractions
succeeded, the three sub-parsers succeeded, the checks passed with the
recorded warning flag, and the record is the assembled one. -/
theorem parse_ok_shape {s : Str} {m : Mode} {w : Bool}
    (h : parse_mode_string s = Except.ok (m, w)) :
    ∃ cs ms asp c mac aN aD,
      commentOf s = some cs ∧ macStrOf s = some ms ∧ aspectOf s = some asp ∧
      parseComment cs = Except.ok c ∧ parseMacroFields ms = Except.ok mac ∧
      aspectNomOf asp = Except.ok aN ∧ aspectDenomOf asp = Except.ok aD ∧
      checks c mac aN aD = Except.ok w ∧ mkMode c mac = Except.ok m := by
  simp only [parse_mode_string, bind_ok, liftO_ok, pure_ok, Prod.mk.injEq] at h
  obtain ⟨cs, h1, ms, h2, asp, h3, c, h4, mac, h5, aN, h6, aD, h7, w2, h8, mode, h9, hm, hw⟩ := h
  subst hm; subst hw
  exact ⟨cs, ms, asp, c, mac, aN, aD, h1, h2, h3, h4, h5, h6, h7, h8, h9⟩

/-- Inversion of the record assembly: the nine integer conversions succeeded
and every field of the record is the stated expression. -/
theorem mkMode_ok_shape {c : CommentData} {mac : MacroData} {m : Mode}
    (h : mkMode c mac = Except.ok m) :
    ∃ clock hd hss hse ht vd vss vse vt,
      pyInt mac.clockStr = Except.ok clock ∧
      pyInt mac.hdisplayStr = Except.ok hd ∧
      pyInt mac.hsyncStartStr = Except.ok hss ∧
      pyInt mac.hsyncEndStr = Except.ok hse ∧
      pyInt mac.htotalStr = Except.ok ht ∧
      pyInt mac.vdisplayStr = Except.ok vd ∧
      pyInt mac.vsyncStartStr = Except.ok vss ∧
      pyInt mac.vsyncEndStr = Except.ok vse ∧
      pyInt mac.vtotalStr = Except.ok vt ∧
      m = { vic := c.vic
            name := mac.name ++ pyStr "@" ++ c.freq ++ pyStr "Hz"
            pxl_clk_khz := clock
            hactive := hd
            vactive := vd
            interlaced := mac.interlaced
            double_clocked := mac.dblClk
            htotal := ht
            hblank := ht - hd
            hfront := hss - hd
            hsync := hse - hss
            hback := ht - hse
            hpol := if mac.hsyncNeg then 0 else 1
            vtotal := vt
            vblank := vt - vd
            vfront := vss - vd
            vsync := vse - vss
            vback := vt - vse
            vpol := if mac.vsyncNeg then 0 else 1
            ln := get_ln c.vic } := by
  simp only [mkMode, bind_ok, pure_ok] at h
  obtain ⟨clock, h1, hd, h2, hss, h3, hse, h4, ht, h5, vd, h6, vss, h7, vse, h8, vt, h9, hm⟩ := h
  exact ⟨clock, hd, hss, hse, ht, vd, vss, vse, vt, h1, h2, h3, h4, h5, h6, h7, h8, h9, hm.symm⟩

theorem pure_eq_ok {α : Type} (x : α) : (pure x : Except Err α) = Except.ok x := rfl

theorem ok_bind {α β : Type} (a : α) (f : α → Except Err β) :
    (Except.ok a >>= f : Except Err β) = f a := rfl

theorem except_bind_assoc {α β γ : Type} (x : Except Err α) (g : α → Except Err β)
    (h : β → Except Err γ) : (x >>= g) >>= h = x >>= fun a => g a >>= h := by
  cases x <;> rfl

/-! ## Inversion of the cross-validator -/

/-- The leading checks an accepted entry passed: closed flag vocabulary,
exactly one polarity flag per axis, and the interlace and double-clock
cross-checks. -/
theorem checks_ok_shape {c : CommentData} {mac : MacroData} {aN aD : Int} {w : Bool}
    (h : checks c mac aN aD = Except.ok w) :
    (mac.flags.all fun f => flags_avail.contains f) = true ∧
    polCount (pyStr "DRM_MODE_FLAG_NHSYNC") (pyStr "DRM_MODE_FLAG_PHSYNC") mac.flags = 1 ∧
    polCount (pyStr "DRM_MODE_FLAG_NVSYNC") (pyStr "DRM_MODE_FLAG_PVSYNC") mac.flags = 1 ∧
    checkInterlaced mac.interlaced mac.nameInterlaced c.interlaced = Except.ok () ∧
    checkDblClk mac.dblClk c.dblClocked c.hres c.dblHres = Except.ok () := by
  simp only [checks, bind_ok, ensure_ok, pure_ok, exists_punit] at h
  obtain ⟨hAll, hPH, hPV, hI, hDb, -⟩ := h
  exact ⟨hAll, hPH, hPV, hI, hDb⟩

theorem checkInterlaced_ok_true {nameI cmntI : Bool} {u : Unit}
    (h : checkInterlaced true nameI cmntI = Except.ok u) :
    nameI = true ∧ cmntI = true := by
  simp only [checkInterlaced, if_true, bind_ok, ensure_ok, pure_ok, exists_punit] at h
  exact h

/-! ## The integer tolerance comparison and its rational reading -/

theorem fps_cross_eq (fn fd p D : Int) (hfd : 0 < fd) (hD : D ≠ 0) :
    fn * D = p * fd ↔ (fn : ℚ) / (fd : ℚ) = (p : ℚ) / (D : ℚ) := by
  rw [div_eq_div_iff (by exact_mod_cast hfd.ne' : (fd : ℚ) ≠ 0)
    (by exact_mod_cast hD : (D : ℚ) ≠ 0)]
  constructor <;> intro h <;> exact_mod_cast h

theorem fps_cross_lt (fn fd p D : Int) (hfd : 0 < fd) (hD : D ≠ 0) :
    ((1000 : Int) * ((fn * D - p * fd).natAbs : Int) < 5 * fn * (D.natAbs : Int))
    ↔ |(fn : ℚ) / (fd : ℚ) - (p : ℚ) / (D : ℚ)| < (5 / 1000) * ((fn : ℚ) / (fd : ℚ)) := by
  have hfdQ : (0 : ℚ) < (fd : ℚ) := by exact_mod_cast hfd
  have hDQ : ((D : ℚ)) ≠ 0 := by exact_mod_cast hD
  have habs : (0 : ℚ) < |(D : ℚ)| := abs_pos.mpr hDQ
  have key : (fn : ℚ) / (fd : ℚ) - (p : ℚ) / (D : ℚ)
      = ((fn * D - p * fd : Int) : ℚ) / ((fd : ℚ) * (D : ℚ)) := by
    field_simp
    ring
  have e1 : (((fn * D - p * fd).natAbs : Int)) = |fn * D - p * fd| := Int.natCast_natAbs _
  have e2 : ((D.natAbs : Int)) = |D| := Int.natCast_natAbs _
  rw [e1, e2, key, abs_div, abs_mul, abs_of_pos hfdQ]
  rw [div_lt_iff₀ (by positivity : (0 : ℚ) < (fd : ℚ) * |(D : ℚ)|)]
  rw [show (5 / 1000 : ℚ) * ((fn : ℚ) / (fd : ℚ)) * ((fd : ℚ) * |(D : ℚ)|)
      = 5 * (fn : ℚ) * |(D : ℚ)| / 1000 from by field_simp; ring]
  rw [lt_div_iff₀ (by norm_num : (0 : ℚ) < (1000 : ℚ))]
  push_cast
  constructor
  · intro h
    have h2 : ((1000 * |fn * D - p * fd| : Int) : ℚ) < ((5 * fn * |D| : Int) : ℚ) := by
      exact_mod_cast h
    push_cast at h2
    linarith
  · intro h
    have h2 : ((1000 * |fn * D - p * fd| : Int) : ℚ) < ((5 * fn * |D| : Int) : ℚ) := by
      push_cast
      linarith
    exact_mod_cast h2

/-! ## Scanner step lemmas -/

theorem isPrefixOf_cons_shape {a : Char} {l s : Str}
    (h : List.isPrefixOf (a :: l) s = true) : ∃ t, s = a :: t := by
  cases s with
  | nil => simp [List.isPrefixOf] at h
  | cons b t =>
    simp only [List.isPrefixOf, Bool.and_eq_true, beq_iff_eq] at h
    exact ⟨t, by rw [h.1]⟩

/-- A line that (stripped) opens with the comment delimiter and does not end
with the entry terminator only replaces the pending block (when an array is
current) and never changes the accepted records or raises. -/
theorem procLine_content {arrays : List Str} {st : ScanSt} {p : Str}
    (h1 : (pyStr "/*").isPrefixOf (strip p) = true)
    (h2 : (pyStr "\x7d,").isSuffixOf (strip p) = false) :
    procLine arrays st p
      = Except.ok (if truthy st.current then ⟨st.current, some (strip p), st.modes⟩ else st) := by
  obtain ⟨t, ht⟩ := isPrefixOf_cons_shape (a := '/') (l := ['*']) h1
  have hb1 : (pyStr "\x7d;").isPrefixOf (strip p) = false := by rw [ht]; rfl
  have hb2 : declPrefix.isPrefixOf (strip p) = false := by rw [ht]; rfl
  by_cases tr : truthy st.current
  · simp [procLine, hb1, hb2, h1, h2, tr, pure_eq_ok, ok_bind]
  · simp [procLine, hb1, hb2, h1, h2, tr, pure_eq_ok, ok_bind]

theorem procLines_append (arrays : List Str) (ls : List Str) (p : Str) (st : ScanSt) :
    procLines arrays (ls ++ [p]) st
      = procLines arrays ls st >>= fun st2 => procLine arrays st2 p := by
  induction ls generalizing st with
  | nil =>
    have hid : ∀ e : Except Err ScanSt, e >>= procLines arrays [] = e := by
      intro e; cases e <;> rfl
    show procLine arrays st p >>= procLines arrays [] = _
    rw [hid]
    rfl
  | cons l ls ih =>
    show procLine arrays st l >>= procLines arrays (ls ++ [p])
        = (procLine arrays st l >>= procLines arrays ls) >>= fun st2 => procLine arrays st2 p
    rw [except_bind_assoc]
    cases procLine arrays st l with
    | error e => rfl
    | ok st2 =>
      show procLines arrays (ls ++ [p]) st2 = _
      exact ih st2

/-! ## Single-character `part0` as `takeWhile` -/

theorem part0_cons_self (c : Char) (t : Str) : part0 [c] (c :: t) = [] := by
  simp [part0, splitFirst, List.isPrefixOf]

theorem part0_cons_of_ne {c a : Char} (h : (c == a) = false) (t : Str) :
    part0 [c] (a :: t) = a :: part0 [c] t := by
  simp only [part0, splitFirst, List.isPrefixOf, h, Bool.false_and, Bool.and_self, if_false]
  cases hsf : splitFirst [c] t with
  | none => simp [hsf]
  | some q => simp [hsf]

theorem part0_single_beq (c : Char) (s : Str) :
    part0 [c] s = s.takeWhile (fun a => !(a == c)) := by
  induction s with
  | nil => rfl
  | cons a t ih =>
    cases hbeq : (c == a) with
    | true =>
      have hac : c = a := by rwa [beq_iff_eq] at hbeq
      subst hac
      simp [part0_cons_self, List.takeWhile_cons]
    | false =>
      have hcomm : (a == c) = false := by
        rw [beq_eq_false_iff_ne] at hbeq ⊢
        exact fun hh => hbeq hh.symm
      rw [part0_cons_of_ne hbeq, List.takeWhile_cons, hcomm]
      simp [ih]

/-! ## The claims -/

/-- Claim C1: feeding the pipeline (`parse_c_file`, which runs
`parse_mode_string` on each entry block) a document containing exactly the
one well-formed mode-16 entry (name `1920x1080@60Hz`, clock 148500 kHz,
h 1920/2008/2052/2200, v 1080/1084/1089/1125, positive polarities) yields
exactly one accepted record, with hfront 88, hsync 44, hback 148, vfront 4,
vsync 5, vback 36, hpol 1, vpol 1 and ln 1. -/
theorem c1_roundtrip_vic16 : parse_c_file doc16 arrays_to_include = Except.ok [mode16] := rfl

/-- Claim C2: the validator computes the refresh rate as
`clock_kHz * 1000 / (vtotal * htotal)`, doubled exactly when the interlace
flag is set; an exact match is accepted silently, a mismatch strictly within
0.5 % relative tolerance is accepted with a warning (in particular a
difference of exactly 0.4 % of the stated rate), and any other mismatch (in
particular exactly 0.6 %) is fatal. -/
theorem c2_fps_tolerance (clock vt ht : Int) (intl : Bool) (f : Dec)
    (hD : vt * ht ≠ 0) (hden : 0 < f.den) (hpos : 0 < decToQ f) :
    (fps_calc clock vt ht true = 2 * fps_calc clock vt ht false) ∧
    (fpsOutcome clock vt ht intl f = .silent ↔ fps_calc clock vt ht intl = decToQ f) ∧
    (fpsOutcome clock vt ht intl f = .warn ↔
      (fps_calc clock vt ht intl ≠ decToQ f ∧
        |decToQ f - fps_calc clock vt ht intl| < (5 / 1000) * decToQ f)) ∧
    (fpsOutcome clock vt ht intl f = .fatal ↔
      (fps_calc clock vt ht intl ≠ decToQ f ∧
        ¬ |decToQ f - fps_calc clock vt ht intl| < (5 / 1000) * decToQ f)) ∧
    (|decToQ f - fps_calc clock vt ht intl| = (4 / 1000) * decToQ f →
      fpsOutcome clock vt ht intl f = .warn) ∧
    (|decToQ f - fps_calc clock vt ht intl| = (6 / 1000) * decToQ f →
      fpsOutcome clock vt ht intl f = .fatal) := by
  have hdbl : fps_calc clock vt ht true = 2 * fps_calc clock vt ht false := by
    simp [fps_calc]
    ring
  have hfps : fps_calc clock vt ht intl
      = (((if intl then 2 else 1) * (clock * 1000) : Int) : ℚ) / ((vt * ht : Int) : ℚ) := by
    cases intl <;> simp only [fps_calc, if_true, if_false, Bool.false_eq_true] <;>
      push_cast <;> ring
  have hEq := fps_cross_eq f.num f.den ((if intl then 2 else 1) * (clock * 1000)) (vt * ht)
    hden hD
  have hLt := fps_cross_lt f.num f.den ((if intl then 2 else 1) * (clock * 1000)) (vt * ht)
    hden hD
  rw [← hfps] at hEq hLt
  rw [show ((f.num : ℚ) / (f.den : ℚ)) = decToQ f from rfl] at hEq hLt
  have hout : fpsOutcome clock vt ht intl f
      = (if f.num * (vt * ht) = ((if intl then 2 else 1) * (clock * 1000)) * f.den
         then FpsOutcome.silent
         else if (1000 : Int) *
              (((f.num * (vt * ht) - ((if intl then 2 else 1) * (clock * 1000)) * f.den).natAbs
                : Int))
              < 5 * f.num * (((vt * ht).natAbs : Int))
           then FpsOutcome.warn else FpsOutcome.fatal) := rfl
  by_cases hc1 : f.num * (vt * ht) = ((if intl then 2 else 1) * (clock * 1000)) * f.den
  · rw [hout, if_pos hc1]
    have hfe : fps_calc clock vt ht intl = decToQ f := (hEq.mp hc1).symm
    refine ⟨hdbl, ⟨fun _ => hfe, fun _ => rfl⟩,
      ⟨fun h => absurd h (by decide), fun hp => absurd hfe hp.1⟩,
      ⟨fun h => absurd h (by decide), fun hp => absurd hfe hp.1⟩, ?_, ?_⟩
    · intro habs
      exfalso
      rw [hfe, sub_self, abs_zero] at habs
      have : decToQ f ≤ 0 := by linarith
      linarith
    · intro habs
      exfalso
      rw [hfe, sub_self, abs_zero] at habs
      have : decToQ f ≤ 0 := by linarith
      linarith
  · have hne : fps_calc clock vt ht intl ≠ decToQ f := fun he => hc1 (hEq.mpr he.symm)
    by_cases hc2 : (1000 : Int) *
        (((f.num * (vt * ht) - ((if intl then 2 else 1) * (clock * 1000)) * f.den).natAbs : Int))
        < 5 * f.num * (((vt * ht).natAbs : Int))
    · rw [hout, if_neg hc1, if_pos hc2]
      have hlt : |decToQ f - fps_calc clock vt ht intl| < (5 / 1000) * decToQ f := hLt.mp hc2
      refine ⟨hdbl, ⟨fun h => absurd h (by decide), fun hfe => absurd hfe.symm ?_⟩,
        ⟨fun _ => ⟨hne, hlt⟩, fun _ => rfl⟩,
        ⟨fun h => absurd h (by decide), fun hp => absurd hlt hp.2⟩,
        fun _ => rfl, ?_⟩
      · exact fun he => hne he.symm
      · intro habs
        exfalso
        rw [habs] at hlt
        linarith
    · rw [hout, if_neg hc1, if_neg hc2]
      have hnl : ¬ |decToQ f - fps_calc clock vt ht intl| < (5 / 1000) * decToQ f :=
        fun hl => hc2 (hLt.mpr hl)
      refine ⟨hdbl, ⟨fun h => absurd h (by decide), fun hfe => absurd hfe.symm ?_⟩,
        ⟨fun h => absurd h (by decide), fun hp => absurd hp.2 hnl⟩,
        ⟨fun _ => ⟨hne, hnl⟩, fun _ => rfl⟩, ?_, fun _ => rfl⟩
      · exact fun he => hne he.symm
      · intro habs
        exfalso
        apply hnl
        rw [habs]
        linarith

/-- Witness for C2: a stated rate of `15000/251` against a computed rate of
60 differs by exactly 0.4 % of the stated rate and is classified as a
warning. -/
theorem c2_fps_tolerance_witness :
    fpsOutcome 60000 1000 1000 false ⟨15000, 251⟩ = FpsOutcome.warn := by
  have h := c2_fps_tolerance 60000 1000 1000 false ⟨15000, 251⟩ (by norm_num) (by norm_num)
    (by norm_num [decToQ])
  apply h.2.2.2.2.1
  have e1 : decToQ ⟨15000, 251⟩ = (15000 : ℚ) / 251 := by norm_num [decToQ]
  have e2 : fps_calc 60000 1000 1000 false = 60 := by
    norm_num [fps_calc]
  rw [e1, e2]
  rw [show (15000 : ℚ) / 251 - 60 = -(60 / 251) from by norm_num]
  rw [abs_neg, abs_of_pos (by norm_num : (0 : ℚ) < 60 / 251)]
  norm_num

/-- Claim C3: every accepted record satisfies
`htotal = hactive + hfront + hsync + hback` and
`vtotal = vactive + vfront + vsync + vback`. -/
theorem c3_total_identity (s : Str) (m : Mode) (w : Bool)
    (h : parse_mode_string s = Except.ok (m, w)) :
    m.htotal = m.hactive + m.hfront + m.hsync + m.hback ∧
    m.vtotal = m.vactive + m.vfront + m.vsync + m.vback := by
  obtain ⟨cs, ms, asp, c, mac, aN, aD, -, -, -, -, -, -, -, -, hmk⟩ := parse_ok_shape h
  obtain ⟨clock, hd, hss, hse, ht, vd, vss, vse, vt, -, -, -, -, -, -, -, -, -, hm⟩ :=
    mkMode_ok_shape hmk
  subst hm
  constructor <;> dsimp only <;> ring

/-- Witness for C3 at the concrete accepted entry 97. -/
theorem c3_total_identity_witness :
    mode97.htotal = mode97.hactive + mode97.hfront + mode97.hsync + mode97.hback ∧
    mode97.vtotal = mode97.vactive + mode97.vfront + mode97.vsync + mode97.vback :=
  c3_total_identity entry97 mode97 false (by rfl)

/-- Counterexample to claim C4: a document repeating the entry with mode
identifier 97 is accepted as two records with the same `vic`, so the set of
accepted identifiers does have duplicates. -/
theorem c4_duplicate_vic_counterexample :
    parse_c_file c4doc arrays_to_include = Except.ok [mode97, mode97] ∧
    ¬ ([mode97, mode97].map Mode.vic).Nodup := by
  exact ⟨rfl, by decide⟩

/-- Claim C4 (amended): the scanner performs no uniqueness check on mode
identifiers; each accepted record's `vic` is exactly the identifier parsed
from its own entry's comment, so repeated identifiers in the input reappear
as repeated `vic`s in the output. -/
theorem c4_vic_from_comment (s : Str) (m : Mode) (w : Bool)
    (h : parse_mode_string s = Except.ok (m, w)) :
    ∃ cs c, commentOf s = some cs ∧ parseComment cs = Except.ok c ∧ m.vic = c.vic := by
  obtain ⟨cs, ms, asp, c, mac, aN, aD, h1, -, -, h4, -, -, -, -, hmk⟩ := parse_ok_shape h
  obtain ⟨clock, hd, hss, hse, ht, vd, vss, vse, vt, -, -, -, -, -, -, -, -, -, hm⟩ :=
    mkMode_ok_shape hmk
  subst hm
  exact ⟨cs, c, h1, h4, rfl⟩

/-- Witness for the amended C4 at the concrete entry 97. -/
theorem c4_vic_from_comment_witness :
    ∃ cs c, commentOf entry97 = some cs ∧ parseComment cs = Except.ok c ∧ mode97.vic = c.vic :=
  c4_vic_from_comment entry97 mode97 false (by rfl)

/-- Counterexample to claim C5: entry 97 has h-sync-start 90 below
h-display 100; every check passes and the entry is accepted with a negative
derived front porch — no `ConsistencyError` is raised. -/
theorem c5_negative_accepted_counterexample :
    parse_mode_string entry97 = Except.ok (mode97, false) ∧ mode97.hfront < 0 :=
  ⟨rfl, by decide⟩

/-- Claim C5 (amended): the Macro Decoder derives the blanking values by
plain subtraction with no sign check: every accepted record satisfies
`hblank = htotal - hactive = hfront + hsync + hback` (same vertically), but
the derived values may be negative and such entries are still accepted. -/
theorem c5_blank_identity (s : Str) (m : Mode) (w : Bool)
    (h : parse_mode_string s = Except.ok (m, w)) :
    m.hblank = m.htotal - m.hactive ∧ m.hblank = m.hfront + m.hsync + m.hback ∧
    m.vblank = m.vtotal - m.vactive ∧ m.vblank = m.vfront + m.vsync + m.vback := by
  obtain ⟨cs, ms, asp, c, mac, aN, aD, -, -, -, -, -, -, -, -, hmk⟩ := parse_ok_shape h
  obtain ⟨clock, hd, hss, hse, ht, vd, vss, vse, vt, -, -, -, -, -, -, -, -, -, hm⟩ :=
    mkMode_ok_shape hmk
  subst hm
  refine ⟨?_, ?_, ?_, ?_⟩ <;> dsimp only <;> ring

/-- Witness for the amended C5 at the concrete accepted entry 97, whose
`hblank` identities hold with a negative `hfront`. -/
theorem c5_blank_identity_witness :
    mode97.hblank = mode97.htotal - mode97.hactive ∧
    mode97.hblank = mode97.hfront + mode97.hsync + mode97.hback ∧
    mode97.vblank = mode97.vtotal - mode97.vactive ∧
    mode97.vblank = mode97.vfront + mode97.vsync + mode97.vback :=
  c5_blank_identity entry97 mode97 false (by rfl)

/-- Counterexample to claim C6: entry 98's comment and macro name both
encode interlace (`480i`) while the macro flag set has no interlace flag;
the entry is accepted (as a non-interlaced record) instead of failing, so
the converse direction claimed is not checked. -/
theorem c6_converse_unchecked_counterexample :
    commentOf entry98 = some (pyStr "98 - 720x480i@60Hz 4:3") ∧
    parseComment (pyStr "98 - 720x480i@60Hz 4:3") = Except.ok cdata98 ∧
    cdata98.interlaced = true ∧
    parse_mode_string entry98 = Except.ok (mode98, false) ∧
    mode98.interlaced = false :=
  ⟨rfl, rfl, rfl, rfl, rfl⟩

/-- Claim C6 (amended): only one direction is checked — if the macro
interlace flag is set then the macro name and the comment must both encode
interlace (otherwise the entry fails); nothing is checked when only the
name or the comment encodes interlace. -/
theorem c6_interlace_forward (s : Str) (m : Mode) (w : Bool)
    (h : parse_mode_string s = Except.ok (m, w)) (hi : m.interlaced = true) :
    ∃ ms mac, macStrOf s = some ms ∧ parseMacroFields ms = Except.ok mac ∧
      mac.nameInterlaced = true ∧
      ∃ cs c, commentOf s = some cs ∧ parseComment cs = Except.ok c ∧ c.interlaced = true := by
  obtain ⟨cs, ms, asp, c, mac, aN, aD, h1, h2, -, h4, h5, -, -, hchk, hmk⟩ := parse_ok_shape h
  obtain ⟨clock, hd, hss, hse, ht, vd, vss, vse, vt, -, -, -, -, -, -, -, -, -, hm⟩ :=
    mkMode_ok_shape hmk
  have hmi : mac.interlaced = true := by rw [hm] at hi; exact hi
  have hcs := checks_ok_shape hchk
  have hI := hcs.2.2.2.1
  rw [hmi] at hI
  obtain ⟨hn, hc⟩ := checkInterlaced_ok_true hI
  exact ⟨ms, mac, h2, h5, hn, cs, c, h1, h4, hc⟩

/-- Witness for the amended C6 at the accepted interlaced entry 5. -/
theorem c6_interlace_forward_witness :
    ∃ ms mac, macStrOf entry5 = some ms ∧ parseMacroFields ms = Except.ok mac ∧
      mac.nameInterlaced = true ∧
      ∃ cs c, commentOf entry5 = some cs ∧ parseComment cs = Except.ok c ∧
        c.interlaced = true :=
  c6_interlace_forward entry5 mode5 false (by rfl) (by rfl)

/-- Counterexample to claim C7: a truncated document (array still open, a
partial block pending at end of input) is not a fatal error — the scanner
silently returns the records accepted so far. -/
theorem c7_truncated_silent_counterexample :
    parse_c_file c7doc arrays_to_include = Except.ok [mode97] := rfl

/-- Claim C7 (amended): the scanner has no end-of-input check — appending a
pending partial line (one that opens a comment block and lacks the entry
terminator) to any successfully scanned line list leaves the result
unchanged: the partial block is silently dropped, no error is raised. -/
theorem c7_partial_block_ignored (arrays : List Str) (ls : List Str) (p : Str) (ms : List Mode)
    (h1 : (pyStr "/*").isPrefixOf (strip p) = true)
    (h2 : (pyStr "\x7d,").isSuffixOf (strip p) = false)
    (h3 : scanModes arrays ls = Except.ok ms) :
    scanModes arrays (ls ++ [p]) = Except.ok ms := by
  simp only [scanModes, map_ok] at h3 ⊢
  obtain ⟨stf, hrun, hmodes⟩ := h3
  refine ⟨if truthy stf.current then ⟨stf.current, some (strip p), stf.modes⟩ else stf, ?_, ?_⟩
  · rw [procLines_append, hrun]
    show procLine arrays stf p = _
    exact procLine_content h1 h2
  · by_cases tr : truthy stf.current <;> simp [tr, hmodes]

/-- Witness for the amended C7: an open array with one pending comment line,
plus one more partial line, still scans to the empty record list. -/
theorem c7_partial_block_ignored_witness :
    scanModes arrays_to_include (c7ls ++ [c7p]) = Except.ok [] :=
  c7_partial_block_ignored arrays_to_include c7ls c7p [] (by rfl) (by rfl) (by rfl)

/-- Claim C8: every accepted entry carries exactly one horizontal and
exactly one vertical sync-polarity flag, and an entry whose flag set does
not (omitting one, or carrying both flags of an axis) fails the checks
rather than being accepted with a defaulted polarity. -/
theorem c8_polarity_flags :
    (∀ (s : Str) (m : Mode) (w : Bool), parse_mode_string s = Except.ok (m, w) →
      ∃ ms mac, macStrOf s = some ms ∧ parseMacroFields ms = Except.ok mac ∧
        polCount (pyStr "DRM_MODE_FLAG_NHSYNC") (pyStr "DRM_MODE_FLAG_PHSYNC") mac.flags = 1 ∧
        polCount (pyStr "DRM_MODE_FLAG_NVSYNC") (pyStr "DRM_MODE_FLAG_PVSYNC") mac.flags = 1) ∧
    (∀ (c : CommentData) (mac : MacroData) (aN aD : Int) (w : Bool),
      polCount (pyStr "DRM_MODE_FLAG_NHSYNC") (pyStr "DRM_MODE_FLAG_PHSYNC") mac.flags ≠ 1 →
      checks c mac aN aD ≠ Except.ok w) ∧
    (∀ (c : CommentData) (mac : MacroData) (aN aD : Int) (w : Bool),
      polCount (pyStr "DRM_MODE_FLAG_NVSYNC") (pyStr "DRM_MODE_FLAG_PVSYNC") mac.flags ≠ 1 →
      checks c mac aN aD ≠ Except.ok w) := by
  refine ⟨?_, ?_, ?_⟩
  · intro s m w h
    obtain ⟨cs, ms, asp, c, mac, aN, aD, -, h2, -, -, h5, -, -, hchk, -⟩ := parse_ok_shape h
    have hcs := checks_ok_shape hchk
    exact ⟨ms, mac, h2, h5, hcs.2.1, hcs.2.2.1⟩
  · intro c mac aN aD w hp h
    exact hp (checks_ok_shape h).2.1
  · intro c mac aN aD w hp h
    exact hp (checks_ok_shape h).2.2.1

/-- Witness for C8: the accepted entry 97 has exactly one polarity flag per
axis, and a flag set with no vertical polarity flag cannot pass the checks. -/
theorem c8_polarity_flags_witness :
    (∃ ms mac, macStrOf entry97 = some ms ∧ parseMacroFields ms = Except.ok mac ∧
      polCount (pyStr "DRM_MODE_FLAG_NHSYNC") (pyStr "DRM_MODE_FLAG_PHSYNC") mac.flags = 1 ∧
      polCount (pyStr "DRM_MODE_FLAG_NVSYNC") (pyStr "DRM_MODE_FLAG_PVSYNC") mac.flags = 1) ∧
    checks cdata98 macNoVPol 4 3 ≠ Except.ok false :=
  ⟨c8_polarity_flags.1 entry97 mode97 false (by rfl),
   c8_polarity_flags.2.2 cdata98 macNoVPol 4 3 false (by decide)⟩

/-- Counterexample to claim C9: on an input whose parameter-list region
holds a nested parenthesis, the code's extraction stops at the first close
parenthesis while the spec's balanced matching continues, and the two
disagree. -/
theorem c9_nested_paren_counterexample :
    macStrOf c9input = some (pyStr "a(b") ∧ macStrSpec c9input = some (pyStr "a(b)c") ∧
    macStrOf c9input ≠ macStrSpec c9input :=
  ⟨rfl, rfl, by decide⟩

/-- Claim C9 (amended): on inputs with no second comment-close delimiter,
the extracted parameter list is the text strictly between the first opening
parenthesis after the comment-close delimiter and the first close
parenthesis after it — not its balanced match. -/
theorem c9_first_close_extraction (s : Str)
    (h : part1 (pyStr "*/") s = after1 (pyStr "*/") s) :
    macStrOf s = firstCloseExtract s := by
  simp only [macStrOf, firstCloseExtract, h]
  cases after1 (pyStr "*/") s with
  | none => rfl
  | some r =>
    show ((after1 (pyStr "(") r).map fun y => strip (part0 (pyStr ")") y))
        = (after1 (pyStr "(") r).map fun inner => strip (inner.takeWhile (fun ch => !(ch == ')')))
    cases after1 (pyStr "(") r with
    | none => rfl
    | some y =>
      show some (strip (part0 (pyStr ")") y))
          = some (strip (y.takeWhile (fun ch => !(ch == ')'))))
      rw [show pyStr ")" = [')'] from rfl, part0_single_beq]

/-- Witness for the amended C9 at the mode-16 entry (one comment-close
delimiter, no nested parentheses before the close). -/
theorem c9_first_close_extraction_witness :
    macStrOf entry16 = firstCloseExtract entry16 :=
  c9_first_close_extraction entry16 (by rfl)

/-- Claim C10: `get_ln` is a total function on mode identifiers; its two
override sets are disjoint, it returns 4 exactly on `ln4`, 7 exactly on
`ln7`, 1 exactly outside both, and every returned value lies between 1 and
7. -/
theorem c10_get_ln_total (vic : Int) :
    ln4.inter ln7 = [] ∧
    (get_ln vic = 4 ↔ vic ∈ ln4) ∧
    (get_ln vic = 7 ↔ vic ∈ ln7) ∧
    (get_ln vic = 1 ↔ (vic ∉ ln4 ∧ vic ∉ ln7)) ∧
    (get_ln vic = 4 ∨ get_ln vic = 7 ∨ get_ln vic = 1) ∧
    1 ≤ get_ln vic ∧ get_ln vic ≤ 7 := by
  have hdisj : ln4.inter ln7 = [] := by decide
  refine ⟨hdisj, ?_⟩
  by_cases h4 : vic ∈ ln4 <;> by_cases h7 : vic ∈ ln7
  · exfalso
    have hmem : vic ∈ ln4.inter ln7 := List.mem_inter_iff.mpr ⟨h4, h7⟩
    rw [hdisj] at hmem
    exact absurd hmem (List.not_mem_nil vic)
  · rw [get_ln, if_pos h4]
    exact ⟨⟨fun _ => h4, fun _ => rfl⟩,
      ⟨fun he => absurd he (by norm_num), fun hm => absurd hm h7⟩,
      ⟨fun he => absurd he (by norm_num), fun hp => absurd h4 hp.1⟩,
      Or.inl rfl, by norm_num, by norm_num⟩
  · rw [get_ln, if_neg h4, if_pos h7]
    exact ⟨⟨fun he => absurd he (by norm_num), fun hm => absurd hm h4⟩,
      ⟨fun _ => h7, fun _ => rfl⟩,
      ⟨fun he => absurd he (by norm_num), fun hp => absurd h7 hp.2⟩,
      Or.inr (Or.inl rfl), by norm_num, by norm_num⟩
  · rw [get_ln, if_neg h4, if_neg h7]
    exact ⟨⟨fun he => absurd he (by norm_num), fun hm => absurd hm h4⟩,
      ⟨fun he => absurd he (by norm_num), fun hm => absurd hm h7⟩,
      ⟨fun _ => ⟨h4, h7⟩, fun _ => rfl⟩,
      Or.inr (Or.inr rfl), by norm_num, by norm_num⟩

end CTA861
